import Mathlib

/-!
Shallow embedding of the wall-climbers/backend service and handler layers.

The store (a Prisma/PostgreSQL database in the source) is modelled as four
lists of rows plus an id generator and a clock; services are pure functions
from a `Store` (and, for writes, to a new `Store`), with fallible Prisma
calls returning `Except`.  Row order in a list is insertion order, which is
what a relational query without `orderBy` exposes; `orderBy: { createdAt }`
is modelled by insertion sort on the `createdAt` key.
-/

namespace Backend

/-- A row of the `User` table (fields relevant to the verified behavior). -/
structure User where
  id : String
  email : String
  username : String
  name : String := ""
  createdAt : Nat := 0
deriving Repr, DecidableEq

/-- A row of the `Post` table. -/
structure Post where
  id : String
  title : String
  content : String
  published : Bool := false
  authorId : String
  createdAt : Nat := 0
deriving Repr, DecidableEq

/-- A row of the `Comment` table; `parentId = some _` marks a reply. -/
structure Comment where
  id : String
  content : String
  authorId : String
  postId : String
  parentId : Option String := none
  createdAt : Nat := 0
deriving Repr, DecidableEq

/-- A row of the `Like` table; the schema declares (userId, postId) unique. -/
structure Like where
  id : String
  userId : String
  postId : String
  createdAt : Nat := 0
deriving Repr, DecidableEq

/-- The relational store: four tables, a fresh-id counter and a clock used to
stamp `createdAt` on inserted rows. -/
structure Store where
  users : List User := []
  posts : List Post := []
  comments : List Comment := []
  likes : List Like := []
  nextId : Nat := 0
  now : Nat := 0
deriving Repr, DecidableEq

section Sorting

variable {α β : Type}

/-- `orderBy: { key: 'desc' }` comparison: later elements have smaller keys. -/
def descBy (key : α → Nat) (a b : α) : Prop := key b ≤ key a

/-- `orderBy: { key: 'asc' }` comparison. -/
def ascBy (key : α → Nat) (a b : α) : Prop := key a ≤ key b

instance (key : α → Nat) : DecidableRel (descBy key) :=
  fun a b => inferInstanceAs (Decidable (key b ≤ key a))

instance (key : α → Nat) : DecidableRel (ascBy key) :=
  fun a b => inferInstanceAs (Decidable (key a ≤ key b))

instance (key : α → Nat) : IsTotal α (descBy key) :=
  ⟨fun a b => Nat.le_total (key b) (key a)⟩

instance (key : α → Nat) : IsTrans α (descBy key) :=
  ⟨fun _ _ _ h1 h2 => Nat.le_trans h2 h1⟩

instance (key : α → Nat) : IsTotal α (ascBy key) :=
  ⟨fun a b => Nat.le_total (key a) (key b)⟩

instance (key : α → Nat) : IsTrans α (ascBy key) :=
  ⟨fun _ _ _ h1 h2 => Nat.le_trans h1 h2⟩

/-- Rows sorted descending on a `Nat` key (`orderBy: { createdAt: 'desc' }`). -/
def sortDesc (key : α → Nat) (l : List α) : List α := l.insertionSort (descBy key)

/-- Rows sorted ascending on a `Nat` key (`orderBy: { createdAt: 'asc' }`). -/
def sortAsc (key : α → Nat) (l : List α) : List α := l.insertionSort (ascBy key)

end Sorting

/-- The `meta` object of a paginated response. -/
structure Meta where
  total : Nat
  page : Nat
  limit : Nat
  totalPages : Nat
  hasMore : Bool
deriving Repr, DecidableEq

/-- `PaginatedResponse<T>` from `types`. -/
structure Paginated (α : Type) where
  data : List α
  meta : Meta
deriving Repr, DecidableEq

/-- `PaginationParams` from `types`: optional page and limit. -/
structure PaginationParams where
  page : Option Nat := none
  limit : Option Nat := none
deriving Repr, DecidableEq

/-- `UserService.getAll`: paginated user list, newest first.
`totalPages` is `Math.ceil(total / limit)`, which for naturals and positive
`limit` is `(total + limit - 1) / limit`. -/
def UserService.getAll (st : Store) (params : PaginationParams) : Paginated User :=
  let page := params.page.getD 1
  let limit := params.limit.getD 10
  let skip := (page - 1) * limit
  let users := ((sortDesc User.createdAt st.users).drop skip).take limit
  let total := st.users.length
  { data := users,
    meta := { total := total, page := page, limit := limit,
              totalPages := (total + limit - 1) / limit,
              hasMore := decide (page * limit < total) } }

/-- `PostFilters` from `types`. -/
structure PostFilters where
  authorId : Option String := none
  published : Option Bool := none
  search : Option String := none
deriving Repr, DecidableEq

/-- Case-insensitive substring test (`contains ..., mode: 'insensitive'`). -/
def strContainsCI (hay needle : String) : Bool :=
  decide (List.IsInfix needle.toLower.data hay.toLower.data)

/-- The `where` object built by `PostService.getAll`.  The source guards the
`authorId` and `search` clauses with JavaScript truthiness (`if (filters.x)`),
so an empty string behaves like an absent filter. -/
def PostFilters.matches (f : PostFilters) (p : Post) : Bool :=
  (match f.authorId with
   | some a => (a == "") || (p.authorId == a)
   | none => true)
  && (match f.published with
      | some b => p.published == b
      | none => true)
  && (match f.search with
      | some s => (s == "") || strContainsCI p.title s || strContainsCI p.content s
      | none => true)

/-- `PostService.getAll`: filtered, paginated post list, newest first. -/
def PostService.getAll (st : Store) (params : PaginationParams)
    (filters : PostFilters) : Paginated Post :=
  let page := params.page.getD 1
  let limit := params.limit.getD 10
  let skip := (page - 1) * limit
  let rows := st.posts.filter filters.matches
  let posts := ((sortDesc Post.createdAt rows).drop skip).take limit
  let total := rows.length
  { data := posts,
    meta := { total := total, page := page, limit := limit,
              totalPages := (total + limit - 1) / limit,
              hasMore := decide (page * limit < total) } }

/-- `PostService.getByAuthor`: delegates to `getAll` with an authorId filter. -/
def PostService.getByAuthor (st : Store) (authorId : String)
    (params : PaginationParams) : Paginated Post :=
  PostService.getAll st params { authorId := some authorId }

/-- `PostService.getFeed`: delegates to `getAll` with `published = true`. -/
def PostService.getFeed (st : Store) (params : PaginationParams) : Paginated Post :=
  PostService.getAll st params { published := some true }

/-- `CommentWithReplies` from `types`: a comment together with its direct
replies (author joins carry no extra information here and are omitted). -/
structure CommentWithReplies where
  comment : Comment
  replies : List Comment
deriving Repr, DecidableEq

/-- `PostFull` from `types`: the hydrated view returned by `PostService.getById`. -/
structure PostFull where
  post : Post
  comments : List CommentWithReplies
  likes : List Like
deriving Repr, DecidableEq

/-- The `replies` include clause with `orderBy: { createdAt: 'asc' }`, as used
by `CommentService.getById` and `CommentService.getByPost`. -/
def repliesAsc (st : Store) (c : Comment) : CommentWithReplies :=
  { comment := c,
    replies := sortAsc Comment.createdAt
      (st.comments.filter fun r => r.parentId == some c.id) }

/-- The `replies` include clause of `PostService.getById`, which carries no
`orderBy`: replies come back in store order. -/
def repliesRaw (st : Store) (c : Comment) : CommentWithReplies :=
  { comment := c,
    replies := st.comments.filter fun r => r.parentId == some c.id }

/-- `PostService.getById`: post with top-level comments (`parentId: null`,
ordered `createdAt: 'desc'`), each carrying its direct replies.  The source
includes the replies with no `orderBy`, so they appear in store order. -/
def PostService.getById (st : Store) (id : String) : Option PostFull :=
  (st.posts.find? fun p => p.id == id).map fun p =>
    { post := p,
      comments :=
        (sortDesc Comment.createdAt
            (st.comments.filter fun c => c.postId == p.id && c.parentId == none)).map
          (repliesRaw st),
      likes := st.likes.filter fun l => l.postId == p.id }

/-- `PostService.isAuthor`: `post?.authorId === userId`.  When the post is
missing, optional chaining yields `undefined`, which is never `===` a string
`userId`, so the result is `false`. -/
def PostService.isAuthor (st : Store) (postId userId : String) : Bool :=
  match st.posts.find? fun p => p.id == postId with
  | some post => post.authorId == userId
  | none => false

/-- `CreateCommentInput` with `parentId` omitted, the payload type accepted by
`CommentService.createReply` (it still carries a `postId` field). -/
structure CreateReplyInput where
  content : String
  authorId : String
  postId : String
deriving Repr, DecidableEq

/-- `CommentService.createReply`: looks up the parent comment; throws
`'Parent comment not found'` when it is missing; otherwise inserts the reply
with `parentId` set and `postId` taken from the parent, spread after `...data`
so any payload `postId` is overridden. -/
def CommentService.createReply (st : Store) (parentId : String)
    (data : CreateReplyInput) : Except String (Comment × Store) :=
  match (st.comments.find? fun c => c.id == parentId).map Comment.postId with
  | none => .error "Parent comment not found"
  | some parentPostId =>
    let c : Comment :=
      { id := toString st.nextId, content := data.content, authorId := data.authorId,
        postId := parentPostId, parentId := some parentId, createdAt := st.now }
    .ok (c, { st with comments := st.comments ++ [c],
                      nextId := st.nextId + 1, now := st.now + 1 })

/-- `CommentService.getById`: comment with its direct replies, replies ordered
`createdAt: 'asc'`. -/
def CommentService.getById (st : Store) (id : String) : Option CommentWithReplies :=
  (st.comments.find? fun c => c.id == id).map (repliesAsc st)

/-- `CommentService.getByPost`: top-level comments of a post, newest first,
paginated, each with its replies ordered `createdAt: 'asc'`. -/
def CommentService.getByPost (st : Store) (postId : String)
    (params : PaginationParams) : Paginated CommentWithReplies :=
  let page := params.page.getD 1
  let limit := params.limit.getD 20
  let skip := (page - 1) * limit
  let rows := st.comments.filter fun c => c.postId == postId && c.parentId == none
  let comments := (((sortDesc Comment.createdAt rows).drop skip).take limit).map
    (repliesAsc st)
  let total := rows.length
  { data := comments,
    meta := { total := total, page := page, limit := limit,
              totalPages := (total + limit - 1) / limit,
              hasMore := decide (page * limit < total) } }

/-- `CommentService.getByAuthor`: all comments by one author, newest first. -/
def CommentService.getByAuthor (st : Store) (authorId : String)
    (params : PaginationParams) : Paginated Comment :=
  let page := params.page.getD 1
  let limit := params.limit.getD 20
  let skip := (page - 1) * limit
  let rows := st.comments.filter fun c => c.authorId == authorId
  let comments := ((sortDesc Comment.createdAt rows).drop skip).take limit
  let total := rows.length
  { data := comments,
    meta := { total := total, page := page, limit := limit,
              totalPages := (total + limit - 1) / limit,
              hasMore := decide (page * limit < total) } }

/-- `CommentService.isAuthor`: `comment?.authorId === userId`; `false` when the
comment is missing (optional chaining yields `undefined`). -/
def CommentService.isAuthor (st : Store) (commentId userId : String) : Bool :=
  match st.comments.find? fun c => c.id == commentId with
  | some comment => comment.authorId == userId
  | none => false

/-- The result object of `LikeService.toggle`. -/
structure ToggleResult where
  liked : Bool
  like : Option Like := none
deriving Repr, DecidableEq

/-- A like row matches the composite unique key `userId_postId`. -/
def likeKey (u p : String) (l : Like) : Bool := l.userId == u && l.postId == p

/-- `LikeService.getByUserAndPost`: `findUnique` on the composite key. -/
def LikeService.getByUserAndPost (st : Store) (u p : String) : Option Like :=
  st.likes.find? (likeKey u p)

/-- `LikeService.hasLiked`: existence check on the composite key. -/
def LikeService.hasLiked (st : Store) (u p : String) : Bool :=
  (st.likes.find? (likeKey u p)).isSome

/-- `LikeService.create`: `prisma.like.create`; the database rejects a second
row for an existing (userId, postId) pair via the schema's unique constraint. -/
def LikeService.create (st : Store) (u p : String) : Except String (Like × Store) :=
  if st.likes.any (likeKey u p) then
    .error "Unique constraint failed on the fields: (userId, postId)"
  else
    let like : Like := { id := toString st.nextId, userId := u, postId := p,
                         createdAt := st.now }
    .ok (like, { st with likes := st.likes ++ [like],
                         nextId := st.nextId + 1, now := st.now + 1 })

/-- `LikeService.delete`: `prisma.like.delete` on the composite unique key;
throws when no row matches, otherwise removes the row with that key (the
unique constraint guarantees at most one, so removal is by key match). -/
def LikeService.delete (st : Store) (u p : String) : Except String (Like × Store) :=
  match st.likes.find? (likeKey u p) with
  | none => .error "Record to delete does not exist."
  | some l => .ok (l, { st with likes := st.likes.filter fun x => !likeKey u p x })

/-- `LikeService.toggle`: read existence via `getByUserAndPost`; delete and
report `{liked: false}` when present, create and report `{liked: true, like}`
when absent. -/
def LikeService.toggle (st : Store) (u p : String) :
    Except String (ToggleResult × Store) :=
  match LikeService.getByUserAndPost st u p with
  | some _ =>
    match LikeService.delete st u p with
    | .error e => .error e
    | .ok (_, st2) => .ok ({ liked := false }, st2)
  | none =>
    match LikeService.create st u p with
    | .error e => .error e
    | .ok (like, st2) => .ok ({ liked := true, like := some like }, st2)

/-- `LikeService.getByPost`: paginated likes of a post, newest first
(default limit 50). -/
def LikeService.getByPost (st : Store) (postId : String)
    (params : PaginationParams) : Paginated Like :=
  let page := params.page.getD 1
  let limit := params.limit.getD 50
  let skip := (page - 1) * limit
  let rows := st.likes.filter fun l => l.postId == postId
  let likes := ((sortDesc Like.createdAt rows).drop skip).take limit
  let total := rows.length
  { data := likes,
    meta := { total := total, page := page, limit := limit,
              totalPages := (total + limit - 1) / limit,
              hasMore := decide (page * limit < total) } }

/-- `LikeService.getByUser`: paginated likes by a user, newest first
(default limit 20). -/
def LikeService.getByUser (st : Store) (userId : String)
    (params : PaginationParams) : Paginated Like :=
  let page := params.page.getD 1
  let limit := params.limit.getD 20
  let skip := (page - 1) * limit
  let rows := st.likes.filter fun l => l.userId == userId
  let likes := ((sortDesc Like.createdAt rows).drop skip).take limit
  let total := rows.length
  { data := likes,
    meta := { total := total, page := page, limit := limit,
              totalPages := (total + limit - 1) / limit,
              hasMore := decide (page * limit < total) } }

/-- A JavaScript `Map`'s `set`: overwrite the value at an existing key,
otherwise append the entry (insertion order is preserved). -/
def jsSet {α : Type} (m : List (String × α)) (k : String) (v : α) :
    List (String × α) :=
  if m.any fun kv => kv.1 == k then
    m.map fun kv => if kv.1 == k then (k, v) else kv
  else m ++ [(k, v)]

/-- A JavaScript `Map`'s `get`. -/
def jsGet {α : Type} (m : List (String × α)) (k : String) : Option α :=
  (m.find? fun kv => kv.1 == k).map Prod.snd

/-- `LikeService.countByPosts`: `groupBy postId` over likes whose post is in
the request, then a map pre-seeded with 0 for every requested id and
overwritten with each group's count. -/
def LikeService.countByPosts (st : Store) (postIds : List String) :
    List (String × Nat) :=
  let filtered := st.likes.filter fun l => postIds.contains l.postId
  let counts := (filtered.map Like.postId).dedup.map
    fun p => (p, (filtered.filter fun l => l.postId == p).length)
  let m0 := postIds.foldl (fun m i => jsSet m i 0) []
  counts.foldl (fun m c => jsSet m c.1 c.2) m0

/-- `LikeService.hasLikedPosts`: likes by the user on the requested posts,
poured over a map pre-seeded with `false` for every requested id. -/
def LikeService.hasLikedPosts (st : Store) (userId : String)
    (postIds : List String) : List (String × Bool) :=
  let likes := st.likes.filter fun l => l.userId == userId && postIds.contains l.postId
  let m0 := postIds.foldl (fun m i => jsSet m i false) []
  likes.foldl (fun m l => jsSet m l.postId true) m0

/-- `CreateUserInput` from `types` (required fields; the optional profile
fields play no role in the verified behavior).  A missing field in the JSON
body is modelled as the empty string, which is exactly what the handler's
truthiness validation (`!body.email`) rejects. -/
structure CreateUserInput where
  email : String
  username : String
  name : String := ""
deriving Repr, DecidableEq

/-- `UserService.emailExists`: `findUnique` on the unique email column. -/
def UserService.emailExists (st : Store) (email : String) : Bool :=
  (st.users.find? fun u => u.email == email).isSome

/-- `UserService.usernameExists`: `findUnique` on the unique username column. -/
def UserService.usernameExists (st : Store) (username : String) : Bool :=
  (st.users.find? fun u => u.username == username).isSome

/-- `UserService.create`: `prisma.user.create`; the database rejects a
duplicate email or username via the schema's unique constraints. -/
def UserService.create (st : Store) (data : CreateUserInput) :
    Except String (User × Store) :=
  if st.users.any fun u => u.email == data.email then
    .error "Unique constraint failed on the fields: (email)"
  else if st.users.any fun u => u.username == data.username then
    .error "Unique constraint failed on the fields: (username)"
  else
    let user : User := { id := toString st.nextId, email := data.email,
                         username := data.username, name := data.name,
                         createdAt := st.now }
    .ok (user, { st with users := st.users ++ [user],
                         nextId := st.nextId + 1, now := st.now + 1 })

/-- The JSON envelope and status code a handler responds with. -/
structure ApiResponse where
  status : Nat
  success : Bool
  error : Option String := none
deriving Repr, DecidableEq

/-- `userHandlers.create`: 400 when email or username is missing; 409
"Email already in use" / "Username already taken" from the two pre-insert
existence checks; otherwise the insert runs and a 201 is returned (a store
failure would be caught and mapped to 500). -/
def userHandlers.create (st : Store) (body : CreateUserInput) :
    ApiResponse × Store :=
  if body.email == "" || body.username == "" then
    ({ status := 400, success := false,
       error := some "Email and username are required" }, st)
  else if UserService.emailExists st body.email then
    ({ status := 409, success := false, error := some "Email already in use" }, st)
  else if UserService.usernameExists st body.username then
    ({ status := 409, success := false, error := some "Username already taken" }, st)
  else
    match UserService.create st body with
    | .ok (_, st2) => ({ status := 201, success := true }, st2)
    | .error _ =>
      ({ status := 500, success := false, error := some "Failed to create user" }, st)

/-- `likeHandlers.like` (`POST .../like/add`): 400 when userId is missing;
409 "Post already liked" when `hasLiked` reports an existing like; otherwise
`likeService.create` runs and a 201 is returned (a store failure would be
caught and mapped to 500). -/
def likeHandlers.like (st : Store) (postId userId : String) :
    ApiResponse × Store :=
  if userId == "" then
    ({ status := 400, success := false, error := some "userId is required" }, st)
  else if LikeService.hasLiked st userId postId then
    ({ status := 409, success := false, error := some "Post already liked" }, st)
  else
    match LikeService.create st userId postId with
    | .ok (_, st2) => ({ status := 201, success := true }, st2)
    | .error _ =>
      ({ status := 500, success := false, error := some "Failed to like post" }, st)

/-- A concrete store with three users, two posts, a comment thread and two
likes, used to instantiate theorems with hypotheses. -/
def wStore : Store :=
  { users :=
      [{ id := "u1", email := "a@x.com", username := "a", createdAt := 1 },
       { id := "u2", email := "b@x.com", username := "b", createdAt := 2 },
       { id := "u3", email := "c@x.com", username := "c", createdAt := 3 }],
    posts :=
      [{ id := "p1", title := "hello", content := "world", published := true,
         authorId := "u1", createdAt := 1 },
       { id := "p2", title := "draft", content := "wip", published := false,
         authorId := "u2", createdAt := 2 }],
    comments :=
      [{ id := "c1", content := "nice", authorId := "u2", postId := "p1", createdAt := 1 },
       { id := "c2", content := "agreed", authorId := "u1", postId := "p1", createdAt := 3 },
       { id := "r1", content := "thanks", authorId := "u1", postId := "p1",
         parentId := some "c1", createdAt := 2 }],
    likes :=
      [{ id := "l1", userId := "u1", postId := "p1", createdAt := 1 },
       { id := "l2", userId := "u2", postId := "p1", createdAt := 2 }],
    nextId := 100,
    now := 50 }

/-- The spec's pagination contract, § 4.1: with `rows` the full filtered row
set and `sorted` its ordered presentation, the meta reports the row count,
the echoed page and limit, `totalPages = ceil(total / limit)` (natural-number
ceiling division) and `hasMore ↔ page * limit < total`, and the data is the
window of `sorted` at offset `(page - 1) * limit` of at most `limit` rows. -/
def pagedCorrectly {α β : Type} (res : Paginated β) (proj : β → α)
    (rows sorted : List α) (page limit : Nat) : Prop :=
  res.meta.total = rows.length ∧
  res.meta.page = page ∧
  res.meta.limit = limit ∧
  res.meta.totalPages = rows.length ⌈/⌉ limit ∧
  (res.meta.hasMore = true ↔ page * limit < rows.length) ∧
  res.data.map proj = (sorted.drop ((page - 1) * limit)).take limit ∧
  res.data.length ≤ limit

theorem paged_build_id {α : Type} (rows sorted : List α) (page limit : Nat) :
    pagedCorrectly
      { data := (sorted.drop ((page - 1) * limit)).take limit,
        meta := { total := rows.length, page := page, limit := limit,
                  totalPages := (rows.length + limit - 1) / limit,
                  hasMore := decide (page * limit < rows.length) } }
      id rows sorted page limit := by
  refine ⟨rfl, rfl, rfl, rfl, by simp, List.map_id _, ?_⟩
  simp

theorem paged_build_map {α β : Type} (attach : α → β) (proj : β → α)
    (hpa : ∀ a, proj (attach a) = a) (rows sorted : List α) (page limit : Nat) :
    pagedCorrectly
      { data := ((sorted.drop ((page - 1) * limit)).take limit).map attach,
        meta := { total := rows.length, page := page, limit := limit,
                  totalPages := (rows.length + limit - 1) / limit,
                  hasMore := decide (page * limit < rows.length) } }
      proj rows sorted page limit := by
  refine ⟨rfl, rfl, rfl, rfl, by simp, ?_, ?_⟩
  · rw [List.map_map, show proj ∘ attach = id from funext hpa, List.map_id]
  · simp

/-- C1: for every list operation (users getAll, posts getAll, comments
getByPost/getByAuthor, likes getByPost/getByUser) and every positive page and
limit, the meta satisfies `totalPages = ceil(total/limit)` and
`hasMore = (page*limit < total)`, and the data is the window of the ordered
row set at offset `(page-1)*limit` of at most `limit` rows. -/
theorem C1_pagination_contract (st : Store) (page limit : Nat)
    (hp : 0 < page) (hl : 0 < limit) (filters : PostFilters)
    (postId userId authorId : String) :
    pagedCorrectly (UserService.getAll st { page := some page, limit := some limit })
      id st.users (sortDesc User.createdAt st.users) page limit ∧
    pagedCorrectly (PostService.getAll st { page := some page, limit := some limit } filters)
      id (st.posts.filter filters.matches)
      (sortDesc Post.createdAt (st.posts.filter filters.matches)) page limit ∧
    pagedCorrectly (CommentService.getByPost st postId { page := some page, limit := some limit })
      CommentWithReplies.comment
      (st.comments.filter fun c => c.postId == postId && c.parentId == none)
      (sortDesc Comment.createdAt
        (st.comments.filter fun c => c.postId == postId && c.parentId == none))
      page limit ∧
    pagedCorrectly (CommentService.getByAuthor st authorId { page := some page, limit := some limit })
      id (st.comments.filter fun c => c.authorId == authorId)
      (sortDesc Comment.createdAt (st.comments.filter fun c => c.authorId == authorId))
      page limit ∧
    pagedCorrectly (LikeService.getByPost st postId { page := some page, limit := some limit })
      id (st.likes.filter fun l => l.postId == postId)
      (sortDesc Like.createdAt (st.likes.filter fun l => l.postId == postId)) page limit ∧
    pagedCorrectly (LikeService.getByUser st userId { page := some page, limit := some limit })
      id (st.likes.filter fun l => l.userId == userId)
      (sortDesc Like.createdAt (st.likes.filter fun l => l.userId == userId)) page limit := by
  refine ⟨?_, ?_, ?_, ?_, ?_, ?_⟩
  · exact paged_build_id ..
  · exact paged_build_id ..
  · exact paged_build_map _ CommentWithReplies.comment (fun _ => rfl) ..
  · exact paged_build_id ..
  · exact paged_build_id ..
  · exact paged_build_id ..

/-- Witness for C1: the users list of the concrete store at page 1, limit 2. -/
theorem C1_pagination_contract_witness :
    pagedCorrectly (UserService.getAll wStore { page := some 1, limit := some 2 })
      id wStore.users (sortDesc User.createdAt wStore.users) 1 2 :=
  (C1_pagination_contract wStore 1 2 (by decide) (by decide) {} "p1" "u1" "u1").1

/-- C9: `getFeed` returns exactly `getAll` with the `published = true` filter;
the two embedded functions agree on every store and every pagination input. -/
theorem C9_getFeed_refines_getAll (st : Store) (params : PaginationParams) :
    PostService.getFeed st params =
      PostService.getAll st params { published := some true } := rfl

/-- C10: `isAuthor` on a missing post (resp. comment) returns `false` rather
than erring or returning a not-found sentinel. -/
theorem C10_isAuthor_missing_false (st : Store) (postId commentId userId : String)
    (hp : st.posts.find? (fun p => p.id == postId) = none)
    (hc : st.comments.find? (fun c => c.id == commentId) = none) :
    PostService.isAuthor st postId userId = false ∧
    CommentService.isAuthor st commentId userId = false := by
  unfold PostService.isAuthor CommentService.isAuthor
  rw [hp, hc]
  exact ⟨rfl, rfl⟩

/-- Witness for C10: ids absent from the concrete store. -/
theorem C10_isAuthor_missing_false_witness :
    PostService.isAuthor wStore "p9" "u1" = false ∧
    CommentService.isAuthor wStore "c9" "u1" = false :=
  C10_isAuthor_missing_false wStore "p9" "c9" "u1" (by decide) (by decide)

/-- The like row `prisma.like.create` inserts for (u, p) in store `st`. -/
def newLikeRow (st : Store) (u p : String) : Like :=
  { id := toString st.nextId, userId := u, postId := p, createdAt := st.now }

/-- The store after a successful `LikeService.create` for (u, p). -/
def insertLikeStore (st : Store) (u p : String) : Store :=
  { st with
      likes := st.likes ++ [newLikeRow st u p]
      nextId := st.nextId + 1
      now := st.now + 1 }

/-- The store after a successful `LikeService.delete` for (u, p). -/
def removeLikeStore (st : Store) (u p : String) : Store :=
  { st with likes := st.likes.filter fun x => !likeKey u p x }

theorem delete_eq_of_find_some {st : Store} {u p : String} {l : Like}
    (h : st.likes.find? (likeKey u p) = some l) :
    LikeService.delete st u p = .ok (l, removeLikeStore st u p) := by
  unfold LikeService.delete
  rw [h]
  rfl

theorem create_eq_of_find_none {st : Store} {u p : String}
    (h : st.likes.find? (likeKey u p) = none) :
    LikeService.create st u p = .ok (newLikeRow st u p, insertLikeStore st u p) := by
  have hany : st.likes.any (likeKey u p) = false :=
    List.any_eq_false.mpr (List.find?_eq_none.mp h)
  unfold LikeService.create
  rw [hany]
  rfl

theorem toggle_eq_of_find_some {st : Store} {u p : String} {l : Like}
    (h : st.likes.find? (likeKey u p) = some l) :
    LikeService.toggle st u p = .ok ({ liked := false }, removeLikeStore st u p) := by
  unfold LikeService.toggle LikeService.getByUserAndPost
  rw [h, delete_eq_of_find_some h]

theorem toggle_eq_of_find_none {st : Store} {u p : String}
    (h : st.likes.find? (likeKey u p) = none) :
    LikeService.toggle st u p =
      .ok ({ liked := true, like := some (newLikeRow st u p) }, insertLikeStore st u p) := by
  unfold LikeService.toggle LikeService.getByUserAndPost
  rw [h, create_eq_of_find_none h]

/-- C2: `toggle` reads existence through `getByUserAndPost`; when a like is
present it deletes it and reports `{liked: false}`; when no like is present it
creates one for (userId, postId) and reports `{liked: true}` with the created
like. -/
theorem C2_toggle_behavior (st : Store) (u p : String) :
    (∀ l, LikeService.getByUserAndPost st u p = some l →
      ∃ l2 st2, LikeService.delete st u p = .ok (l2, st2) ∧
        LikeService.toggle st u p = .ok ({ liked := false }, st2)) ∧
    (LikeService.getByUserAndPost st u p = none →
      ∃ like st2, LikeService.create st u p = .ok (like, st2) ∧
        LikeService.toggle st u p = .ok ({ liked := true, like := some like }, st2) ∧
        like.userId = u ∧ like.postId = p) := by
  constructor
  · intro l h
    exact ⟨l, _, delete_eq_of_find_some h, toggle_eq_of_find_some h⟩
  · intro h
    exact ⟨_, _, create_eq_of_find_none h, toggle_eq_of_find_none h, rfl, rfl⟩

/-- Witness for C2: in the concrete store user u1 has liked p1, so toggle
deletes the like and reports `{liked: false}`. -/
theorem C2_toggle_behavior_witness :
    ∃ l2 st2, LikeService.delete wStore "u1" "p1" = .ok (l2, st2) ∧
      LikeService.toggle wStore "u1" "p1" = .ok ({ liked := false }, st2) :=
  (C2_toggle_behavior wStore "u1" "p1").1 _ rfl

theorem find?_filter_not_self {α : Type} (l : List α) (q : α → Bool) :
    (l.filter fun x => !q x).find? q = none := by
  rw [List.find?_eq_none]
  intro x hx
  have hq := (List.mem_filter.mp hx).2
  simp only [Bool.not_eq_true'] at hq
  simp [hq]

/-- C3: two consecutive toggles for the same (userId, postId) leave the
existence of the pair exactly as it started, in every starting store. -/
theorem C3_toggle_twice_restores (st : Store) (u p : String) :
    ∃ r1 st1 r2 st2,
      LikeService.toggle st u p = .ok (r1, st1) ∧
      LikeService.toggle st1 u p = .ok (r2, st2) ∧
      LikeService.hasLiked st2 u p = LikeService.hasLiked st u p := by
  cases hfind : st.likes.find? (likeKey u p) with
  | some l =>
    have h1 := toggle_eq_of_find_some hfind
    have hnone : (removeLikeStore st u p).likes.find? (likeKey u p) = none :=
      find?_filter_not_self ..
    have h2 := toggle_eq_of_find_none hnone
    refine ⟨_, _, _, _, h1, h2, ?_⟩
    unfold LikeService.hasLiked
    rw [hfind]
    show ((insertLikeStore (removeLikeStore st u p) u p).likes.find? (likeKey u p)).isSome = _
    unfold insertLikeStore
    rw [List.find?_append, hnone]
    simp [likeKey, newLikeRow]
  | none =>
    have h1 := toggle_eq_of_find_none hfind
    have hsome : (insertLikeStore st u p).likes.find? (likeKey u p) =
        some (newLikeRow st u p) := by
      show (st.likes ++ [newLikeRow st u p]).find? (likeKey u p) = _
      rw [List.find?_append, hfind]
      simp [likeKey, newLikeRow]
    have h2 := toggle_eq_of_find_some hsome
    refine ⟨_, _, _, _, h1, h2, ?_⟩
    unfold LikeService.hasLiked
    rw [hfind]
    show (((insertLikeStore st u p).likes.filter fun x => !likeKey u p x).find?
      (likeKey u p)).isSome = _
    unfold insertLikeStore
    simp only [List.filter_append]
    rw [List.find?_append, find?_filter_not_self]
    simp [likeKey, newLikeRow]

/-- The comment row `createReply` inserts under parent postId `ppid`. -/
def newReplyRow (st : Store) (parentId : String) (data : CreateReplyInput)
    (ppid : String) : Comment :=
  { id := toString st.nextId, content := data.content, authorId := data.authorId,
    postId := ppid, parentId := some parentId, createdAt := st.now }

/-- The store after inserting comment row `c`. -/
def insertCommentStore (st : Store) (c : Comment) : Store :=
  { st with
      comments := st.comments ++ [c]
      nextId := st.nextId + 1
      now := st.now + 1 }

/-- C4: `createReply` fails with the not-found error when the parent comment
is missing; otherwise the stored reply carries `parentId` and inherits the
parent's `postId`, whatever `postId` the payload supplied. -/
theorem C4_createReply (st : Store) (parentId : String) (data : CreateReplyInput) :
    (st.comments.find? (fun c => c.id == parentId) = none →
      CommentService.createReply st parentId data = .error "Parent comment not found") ∧
    (∀ parent, st.comments.find? (fun c => c.id == parentId) = some parent →
      ∃ c st2, CommentService.createReply st parentId data = .ok (c, st2) ∧
        c.parentId = some parentId ∧ c.postId = parent.postId ∧
        c.content = data.content ∧ c.authorId = data.authorId ∧
        st2.comments = st.comments ++ [c]) := by
  constructor
  · intro h
    unfold CommentService.createReply
    rw [h]
    rfl
  · intro parent h
    have hcr : CommentService.createReply st parentId data =
        .ok (newReplyRow st parentId data parent.postId,
             insertCommentStore st (newReplyRow st parentId data parent.postId)) := by
      unfold CommentService.createReply
      rw [h]
      rfl
    exact ⟨_, _, hcr, rfl, rfl, rfl, rfl, rfl⟩

/-- Witness for C4: replying to the existing comment c1 of the concrete store
inherits c1's postId p1, ignoring the divergent postId in the payload. -/
theorem C4_createReply_witness :
    ∃ c st2, CommentService.createReply wStore "c1"
        { content := "re", authorId := "u3", postId := "someOtherPost" } = .ok (c, st2) ∧
      c.parentId = some "c1" ∧
      c.postId = ({ id := "c1", content := "nice", authorId := "u2", postId := "p1",
                    createdAt := 1 } : Comment).postId ∧
      c.content = "re" ∧ c.authorId = "u3" ∧
      st2.comments = wStore.comments ++ [c] :=
  (C4_createReply wStore "c1"
    { content := "re", authorId := "u3", postId := "someOtherPost" }).2 _ rfl

/-- C6: a user-create request whose email is already taken gets a 409
"Email already in use" and the store is untouched (the insert never runs);
with a fresh email but a taken username it gets a 409 "Username already
taken", again without touching the store.  Both existence checks run before
the insert. -/
theorem C6_user_create_conflicts (st : Store) (body : CreateUserInput)
    (he : body.email ≠ "") (hu : body.username ≠ "") :
    (UserService.emailExists st body.email = true →
      userHandlers.create st body =
        ({ status := 409, success := false, error := some "Email already in use" }, st)) ∧
    (UserService.emailExists st body.email = false →
      UserService.usernameExists st body.username = true →
      userHandlers.create st body =
        ({ status := 409, success := false, error := some "Username already taken" }, st)) := by
  have he' : (body.email == "") = false := by simpa using he
  have hu' : (body.username == "") = false := by simpa using hu
  constructor
  · intro h
    simp [userHandlers.create, he', hu', h]
  · intro h1 h2
    simp [userHandlers.create, he', hu', h1, h2]

/-- Witness for C6: re-creating a user with the taken email a@x.com. -/
theorem C6_user_create_conflicts_witness :
    userHandlers.create wStore { email := "a@x.com", username := "zz" } =
      ({ status := 409, success := false, error := some "Email already in use" }, wStore) :=
  (C6_user_create_conflicts wStore { email := "a@x.com", username := "zz" }
    (by decide) (by decide)).1 rfl

/-- C8: the `like` handler returns 409 "Post already liked" and leaves the
store untouched when the (userId, postId) like exists; otherwise it inserts
the like and returns 201. -/
theorem C8_like_handler (st : Store) (postId userId : String) (hu : userId ≠ "") :
    (LikeService.hasLiked st userId postId = true →
      likeHandlers.like st postId userId =
        ({ status := 409, success := false, error := some "Post already liked" }, st)) ∧
    (LikeService.hasLiked st userId postId = false →
      likeHandlers.like st postId userId =
        ({ status := 201, success := true }, insertLikeStore st userId postId) ∧
      (insertLikeStore st userId postId).likes =
        st.likes ++ [newLikeRow st userId postId] ∧
      (newLikeRow st userId postId).userId = userId ∧
      (newLikeRow st userId postId).postId = postId) := by
  have hu' : (userId == "") = false := by simpa using hu
  constructor
  · intro h
    simp [likeHandlers.like, hu', h]
  · intro h
    have hfind : st.likes.find? (likeKey userId postId) = none := by
      unfold LikeService.hasLiked at h
      cases hf : st.likes.find? (likeKey userId postId) with
      | none => rfl
      | some l => rw [hf] at h; simp at h
    refine ⟨?_, rfl, rfl, rfl⟩
    simp [likeHandlers.like, hu', h, create_eq_of_find_none hfind]

/-- Witness for C8: u1 already liked p1 in the concrete store, so the like
handler answers 409 and changes nothing. -/
theorem C8_like_handler_witness :
    likeHandlers.like wStore "p1" "u1" =
      ({ status := 409, success := false, error := some "Post already liked" }, wStore) :=
  (C8_like_handler wStore "p1" "u1" (by decide)).1 rfl

/-- JavaScript `Map` semantics: `get` after `set` sees the new value at the
written key and is untouched elsewhere. -/
theorem jsGet_jsSet {α : Type} (m : List (String × α)) (k k' : String) (v : α) :
    jsGet (jsSet m k v) k' = if k' = k then some v else jsGet m k' := by
  unfold jsSet jsGet
  by_cases hmem : (m.any fun kv => kv.1 == k) = true
  · rw [if_pos hmem, List.find?_map]
    have hpq : ((fun kv : String × α => kv.1 == k') ∘
        fun kv => if kv.1 == k then (k, v) else kv) =
          fun kv : String × α => kv.1 == k' := by
      funext kv
      by_cases hkv : kv.1 = k
      · by_cases hk : k' = k
        · simp [hkv, hk]
        · simp [hkv, fun h : k = k' => hk (Eq.symm h)]
      · simp [hkv]
    rw [hpq]
    by_cases hk : k' = k
    · subst hk
      rw [if_pos rfl]
      cases hfm : m.find? (fun kv : String × α => kv.1 == k') with
      | none =>
        rcases List.any_eq_true.mp hmem with ⟨x, hx, hpx⟩
        exact absurd hpx (List.find?_eq_none.mp hfm x hx)
      | some c =>
        have hck : c.1 = k' := by simpa using List.find?_some hfm
        simp [hck]
    · rw [if_neg hk]
      cases hfm : m.find? (fun kv : String × α => kv.1 == k') with
      | none => rfl
      | some c =>
        have hck : c.1 ≠ k := by
          rw [show c.1 = k' by simpa using List.find?_some hfm]
          exact hk
        simp [hck]
  · rw [if_neg hmem, List.find?_append]
    by_cases hk : k' = k
    · subst hk
      have hnone : m.find? (fun kv : String × α => kv.1 == k') = none := by
        rw [List.find?_eq_none]
        intro x hx hpx
        exact hmem (List.any_eq_true.mpr ⟨x, hx, hpx⟩)
      simp [hnone, List.find?_cons]
    · have hb : (k == k') = false := by simpa using fun h : k = k' => hk (Eq.symm h)
      simp [hk, List.find?_cons, hb]

/-- Folding `set k v` over a key list with one constant value: `get` sees the
constant on every folded key and is untouched elsewhere. -/
theorem jsGet_foldl_const {α : Type} (ids : List String) (m : List (String × α))
    (v : α) (k : String) :
    jsGet (ids.foldl (fun acc i => jsSet acc i v) m) k =
      if k ∈ ids then some v else jsGet m k := by
  induction ids generalizing m with
  | nil => simp
  | cons a t ih =>
    rw [List.foldl_cons, ih]
    by_cases hk : k ∈ t
    · simp [hk]
    · by_cases hka : k = a
      · simp [hka, hk, jsGet_jsSet]
      · simp [hk, hka, jsGet_jsSet]

/-- Folding `set` over key-value pairs with pairwise-distinct keys: `get`
returns the pair value at each folded key and is untouched elsewhere. -/
theorem jsGet_foldl_pairs {α : Type} (pairs : List (String × α))
    (m : List (String × α)) (k : String) (hnd : (pairs.map Prod.fst).Nodup) :
    jsGet (pairs.foldl (fun acc c => jsSet acc c.1 c.2) m) k =
      match pairs.find? (fun c => c.1 == k) with
      | some c => some c.2
      | none => jsGet m k := by
  induction pairs generalizing m with
  | nil => simp
  | cons a t ih =>
    have hnd' : (t.map Prod.fst).Nodup := (List.nodup_cons.mp (by simpa using hnd)).2
    have hna : a.1 ∉ t.map Prod.fst := (List.nodup_cons.mp (by simpa using hnd)).1
    rw [List.foldl_cons, ih _ hnd']
    cases hf : t.find? (fun c => c.1 == k) with
    | some c =>
      have hck : c.1 = k := by simpa using List.find?_some hf
      have hcm : c ∈ t := List.mem_of_find?_eq_some hf
      have hak : ¬ a.1 = k := fun he =>
        hna (he ▸ hck ▸ List.mem_map_of_mem Prod.fst hcm)
      have hcons : List.find? (fun c => c.1 == k) (a :: t) =
          List.find? (fun c => c.1 == k) t := by
        apply List.find?_cons_of_neg
        simpa using hak
      rw [hcons, hf]
    | none =>
      by_cases hak : a.1 = k
      · have hcons : List.find? (fun c => c.1 == k) (a :: t) = some a := by
          apply List.find?_cons_of_pos
          simpa using hak
        rw [hcons]
        simp [jsGet_jsSet, hak]
      · have hcons : List.find? (fun c => c.1 == k) (a :: t) =
            List.find? (fun c => c.1 == k) t := by
          apply List.find?_cons_of_neg
          simpa using hak
        rw [hcons, hf, jsGet_jsSet, if_neg (fun h : k = a.1 => hak (Eq.symm h))]

theorem find?_beq_self_of_mem (l : List String) (a : String) (h : a ∈ l) :
    l.find? (fun x => x == a) = some a := by
  induction l with
  | nil => simp at h
  | cons b t ih =>
    by_cases hb : b = a
    · rw [List.find?_cons_of_pos _ (by simpa using hb), hb]
    · rw [List.find?_cons_of_neg _ (by simpa using hb)]
      exact ih (List.mem_cons.mp h |>.resolve_left fun he => hb he.symm)

/-- C5: the batch queries `countByPosts` and `hasLikedPosts` return a map
with an entry for every requested id; an id with no matching like rows maps
to 0 (resp. `false`), and otherwise to its actual count (resp. `true`), i.e.
each entry holds the exact count / existence over the like table. -/
theorem C5_batch_defaults (st : Store) (userId : String) (postIds : List String)
    (pid : String) (hmem : pid ∈ postIds) :
    jsGet (LikeService.countByPosts st postIds) pid =
      some (List.length (st.likes.filter fun l => l.postId == pid)) ∧
    jsGet (LikeService.hasLikedPosts st userId postIds) pid =
      some (st.likes.any fun l => l.userId == userId && l.postId == pid) := by
  have hcontains : postIds.contains pid = true := by simpa using hmem
  constructor
  · unfold LikeService.countByPosts
    set filtered := st.likes.filter fun l => postIds.contains l.postId with hfiltered
    set dl := (filtered.map Like.postId).dedup with hdl
    set g : String → String × Nat :=
      fun p => (p, (filtered.filter fun l => l.postId == p).length) with hg
    have hnd : ((dl.map g).map Prod.fst).Nodup := by
      rw [List.map_map, show (Prod.fst ∘ g) = id from funext fun _ => rfl, List.map_id]
      exact (filtered.map Like.postId).nodup_dedup
    rw [jsGet_foldl_pairs _ _ _ hnd]
    have hfm : (dl.map g).find? (fun c => c.1 == pid) =
        (dl.find? fun p => p == pid).map g := by
      rw [List.find?_map]
      rfl
    rw [hfm]
    by_cases hmemdl : pid ∈ dl
    · rw [find?_beq_self_of_mem dl pid hmemdl]
      have hfilter : filtered.filter (fun l => l.postId == pid) =
          st.likes.filter fun l => l.postId == pid := by
        rw [hfiltered, List.filter_filter]
        apply List.filter_congr
        intro a _
        by_cases hpp : a.postId = pid
        · simp [hpp, hmem]
        · simp [hpp]
      simp only [Option.map_some']
      rw [hfilter]
    · have hfn : dl.find? (fun p => p == pid) = none := by
        rw [List.find?_eq_none]
        intro x hx hpx
        exact hmemdl ((by simpa using hpx : x = pid) ▸ hx)
      rw [hfn]
      simp only [Option.map_none']
      have hm0 : jsGet (postIds.foldl (fun m i => jsSet m i 0) []) pid = some 0 := by
        rw [jsGet_foldl_const, if_pos hmem]
      rw [hm0]
      have hempty : st.likes.filter (fun l => l.postId == pid) = [] := by
        rw [List.filter_eq_nil_iff]
        intro a ha hppa
        have hap : a.postId = pid := by simpa using hppa
        have haf : a ∈ filtered := by
          rw [hfiltered, List.mem_filter]
          exact ⟨ha, by rw [hap]; exact hcontains⟩
        exact hmemdl (by
          rw [hdl, List.mem_dedup]
          exact hap ▸ List.mem_map_of_mem Like.postId haf)
      rw [hempty]
      rfl
  · unfold LikeService.hasLikedPosts
    set likesF := st.likes.filter fun l =>
      l.userId == userId && postIds.contains l.postId with hlikesF
    rw [show likesF.foldl (fun m l => jsSet m l.postId true)
          (postIds.foldl (fun m i => jsSet m i false) []) =
        (likesF.map Like.postId).foldl (fun m k => jsSet m k true)
          (postIds.foldl (fun m i => jsSet m i false) []) from
      (List.foldl_map Like.postId (fun m k => jsSet m k true) likesF
        (postIds.foldl (fun m i => jsSet m i false) [])).symm]
    rw [jsGet_foldl_const]
    by_cases hx : pid ∈ likesF.map Like.postId
    · rw [if_pos hx]
      rcases List.mem_map.mp hx with ⟨l, hlm, hlp⟩
      have hcond := (List.mem_filter.mp (hlikesF ▸ hlm)).2
      have hmem2 : l ∈ st.likes := (List.mem_filter.mp (hlikesF ▸ hlm)).1
      rw [Bool.and_eq_true] at hcond
      have huid : (l.userId == userId) = true := hcond.1
      have hany : (st.likes.any fun l => l.userId == userId && l.postId == pid) = true :=
        List.any_eq_true.mpr ⟨l, hmem2, by simp [huid, hlp]⟩
      rw [hany]
    · rw [if_neg hx]
      have hm0 : jsGet (postIds.foldl (fun m i => jsSet m i false) []) pid =
          some false := by
        rw [jsGet_foldl_const, if_pos hmem]
      rw [hm0]
      have hany : (st.likes.any fun l => l.userId == userId && l.postId == pid) = false := by
        cases hc : st.likes.any fun l => l.userId == userId && l.postId == pid with
        | false => rfl
        | true =>
          rcases List.any_eq_true.mp hc with ⟨l, hl, hcond⟩
          rw [Bool.and_eq_true] at hcond
          have huid := hcond.1
          have hlp : l.postId = pid := by simpa using hcond.2
          have hlf : l ∈ likesF := by
            rw [hlikesF, List.mem_filter]
            exact ⟨hl, by simp [huid, hlp, hmem]⟩
          exact absurd (hlp ▸ List.mem_map_of_mem Like.postId hlf) hx
      rw [hany]

/-- Witness for C5: requested ids p1 (two likes) and p9 (no rows); p9 defaults
to count 0 and `false`. -/
theorem C5_batch_defaults_witness :
    jsGet (LikeService.countByPosts wStore ["p1", "p9"]) "p9" =
      some (List.length (wStore.likes.filter fun l => l.postId == "p9")) ∧
    jsGet (LikeService.hasLikedPosts wStore "u1" ["p1", "p9"]) "p9" =
      some (wStore.likes.any fun l => l.userId == "u1" && l.postId == "p9") :=
  C5_batch_defaults wStore "u1" ["p1", "p9"] "p9" (by simp)

theorem sorted_ge_sortDesc {α : Type} (key : α → Nat) (l : List α) :
    ((sortDesc key l).map key).Sorted (· ≥ ·) :=
  List.pairwise_map.mpr (List.sorted_insertionSort (descBy key) l)

theorem sorted_le_sortAsc {α : Type} (key : α → Nat) (l : List α) :
    ((sortAsc key l).map key).Sorted (· ≤ ·) :=
  List.pairwise_map.mpr (List.sorted_insertionSort (ascBy key) l)

theorem sorted_ge_take_drop {l : List Nat} (h : l.Sorted (· ≥ ·)) (m n : Nat) :
    ((l.drop m).take n).Sorted (· ≥ ·) :=
  h.sublist (List.Sublist.trans (List.take_sublist ..) (List.drop_sublist ..))

theorem sorted_window {α : Type} (key : α → Nat) (rows : List α) (m n : Nat) :
    ((((sortDesc key rows).drop m).take n).map key).Sorted (· ≥ ·) := by
  rw [List.map_take, List.map_drop]
  exact sorted_ge_take_drop (sorted_ge_sortDesc key rows) m n

theorem sorted_window_map {α β : Type} (key : α → Nat) (attach : α → β)
    (keyB : β → Nat) (hk : ∀ a, keyB (attach a) = key a) (rows : List α) (m n : Nat) :
    (((((sortDesc key rows).drop m).take n).map attach).map keyB).Sorted (· ≥ ·) := by
  rw [List.map_map, show keyB ∘ attach = key from funext hk]
  exact sorted_window key rows m n

theorem sorted_map_attach {α β : Type} (key : α → Nat) (attach : α → β)
    (keyB : β → Nat) (hk : ∀ a, keyB (attach a) = key a) (rows : List α) :
    (((sortDesc key rows).map attach).map keyB).Sorted (· ≥ ·) := by
  rw [List.map_map, show keyB ∘ attach = key from funext hk]
  exact sorted_ge_sortDesc key rows

/-- C7, amended: every paginated list result is ordered descending by creation
time, and comment replies are ascending in `CommentService.getById` and
`CommentService.getByPost`; in the hydrated `PostService.getById` view the
top-level comments are descending, but its replies carry no ordering (they are
returned in store order), contrary to the claim. -/
theorem C7_ordering_amended (st : Store) (params : PaginationParams)
    (filters : PostFilters) (postId userId authorId cid pid : String) :
    ((UserService.getAll st params).data.map User.createdAt).Sorted (· ≥ ·) ∧
    ((PostService.getAll st params filters).data.map Post.createdAt).Sorted (· ≥ ·) ∧
    ((CommentService.getByAuthor st authorId params).data.map
      Comment.createdAt).Sorted (· ≥ ·) ∧
    ((LikeService.getByPost st postId params).data.map Like.createdAt).Sorted (· ≥ ·) ∧
    ((LikeService.getByUser st userId params).data.map Like.createdAt).Sorted (· ≥ ·) ∧
    (((CommentService.getByPost st postId params).data.map
      fun cw => cw.comment.createdAt).Sorted (· ≥ ·)) ∧
    (∀ cw ∈ (CommentService.getByPost st postId params).data,
      (cw.replies.map Comment.createdAt).Sorted (· ≤ ·)) ∧
    (∀ cw, CommentService.getById st cid = some cw →
      (cw.replies.map Comment.createdAt).Sorted (· ≤ ·)) ∧
    (∀ pf, PostService.getById st pid = some pf →
      ((pf.comments.map fun cw => cw.comment.createdAt).Sorted (· ≥ ·))) := by
  refine ⟨?_, ?_, ?_, ?_, ?_, ?_, ?_, ?_, ?_⟩
  · exact sorted_window User.createdAt ..
  · exact sorted_window Post.createdAt ..
  · exact sorted_window Comment.createdAt ..
  · exact sorted_window Like.createdAt ..
  · exact sorted_window Like.createdAt ..
  · exact sorted_window_map Comment.createdAt (repliesAsc st)
      (fun cw => cw.comment.createdAt) (fun _ => rfl) ..
  · intro cw hcw
    rcases List.mem_map.mp hcw with ⟨c, _, rfl⟩
    exact sorted_le_sortAsc Comment.createdAt _
  · intro cw h
    rcases Option.map_eq_some'.mp h with ⟨c, _, rfl⟩
    exact sorted_le_sortAsc Comment.createdAt _
  · intro pf h
    rcases Option.map_eq_some'.mp h with ⟨p, _, rfl⟩
    exact sorted_map_attach Comment.createdAt (repliesRaw st)
      (fun cw => cw.comment.createdAt) (fun _ => rfl) _

/-- Witness for C7 (amended): the replies of comment c1 in the concrete store
come back ascending from `CommentService.getById`. -/
theorem C7_ordering_amended_witness :
    ∃ cw, CommentService.getById wStore "c1" = some cw ∧
      (cw.replies.map Comment.createdAt).Sorted (· ≤ ·) :=
  ⟨_, rfl, (C7_ordering_amended wStore {} {} "p1" "u1" "u1" "c1"
    "p1").2.2.2.2.2.2.2.1 _ rfl⟩

/-- A store whose two replies to comment c1 sit in the table newest-first
(createdAt 5 before createdAt 3). -/
def cex7 : Store :=
  { posts := [{ id := "p1", title := "t", content := "x", published := true,
                authorId := "u1", createdAt := 1 }],
    comments :=
      [{ id := "c1", content := "parent", authorId := "u1", postId := "p1",
         createdAt := 10 },
       { id := "r1", content := "late reply", authorId := "u1", postId := "p1",
         parentId := some "c1", createdAt := 5 },
       { id := "r2", content := "early reply", authorId := "u1", postId := "p1",
         parentId := some "c1", createdAt := 3 }] }

/-- C7 counterexample: in the hydrated `PostService.getById` view of `cex7`,
the replies of comment c1 come back in store order with createdAt values
[5, 3], which is not ascending by creation time, so the claimed reply
ordering fails for the post getById view. -/
theorem C7_counterexample :
    ¬ ∀ pf, PostService.getById cex7 "p1" = some pf →
        ∀ cw ∈ pf.comments, (cw.replies.map Comment.createdAt).Sorted (· ≤ ·) := by
  intro h
  have h2 := h _ rfl
    ({ comment := { id := "c1", content := "parent", authorId := "u1",
                    postId := "p1", createdAt := 10 },
       replies :=
        [{ id := "r1", content := "late reply", authorId := "u1", postId := "p1",
           parentId := some "c1", createdAt := 5 },
         { id := "r2", content := "early reply", authorId := "u1", postId := "p1",
           parentId := some "c1", createdAt := 3 }] } : CommentWithReplies)
    (by decide)
  exact absurd h2 (by decide)

end Backend
